import Mathlib

/-!
Verification of the T3D servo serial transport (`src/transport.py`) and the
status-refresh coalescing pass (`src/gui.py`).

Bytes are modelled as `Nat` (Python `bytes` elements are integers in
`[0, 256)`); byte strings are `List Nat`.  Python bitwise operators map to
`Nat.land` (`&&&`), `Nat.lor` (`|||`), `Nat.xor` (`^^^`), `Nat.shiftRight`
(`>>>`) and `Nat.shiftLeft` (`<<<`).  Fallible code returns `Option` or
`Except`.
-/

set_option maxRecDepth 100000

namespace T3D

/-- Transport constants from `transport.py` lines 5-11. -/
def BITS_PER_CHAR : Nat := 10

/-- Number of characters to wait for the first response byte. -/
def START_CHARS : Nat := 200

/-- Minimum start timeout in seconds, as an exact rational. -/
def MIN_START_TIMEOUT : ℚ := 1/2

/-- Embedding of `compute_crc` (transport.py lines 14-25): Modbus RTU CRC16.
`crc = 0xFFFF`; for each byte `a`: `crc ^= a & 0xFF`, then 8 times
`lsb = crc & 1; crc >>= 1; if lsb: crc ^= 0xA001; crc &= 0xFFFF`;
return `crc & 0xFFFF`. -/
def compute_crc (data : List Nat) : Nat :=
  (data.foldl (fun crc a =>
    (List.range 8).foldl (fun c _ =>
      let lsb := c &&& 0x0001
      let c := c >>> 1
      let c := if lsb ≠ 0 then c ^^^ 0xA001 else c
      c &&& 0xFFFF) (crc ^^^ (a &&& 0xFF))) 0xFFFF) &&& 0xFFFF

/-- One shift-and-conditionally-xor round, written from the spec's words
(§4.1): if the low bit is 1, right-shift by one bit and XOR with 0xA001,
otherwise just right-shift; mask to 16 bits after every step. -/
def crcSpecStep (c : Nat) : Nat :=
  if c % 2 = 1 then ((c / 2) ^^^ 0xA001) % 65536 else (c / 2) % 65536

/-- Per-byte update from the spec's words (§4.1): XOR the byte into the low
8 bits of the accumulator, then repeat the round 8 times. -/
def crcSpecByte (c a : Nat) : Nat := crcSpecStep^[8] (c ^^^ a)

/-- The CRC16 algorithm as the spec states it (§4.1): accumulator starts at
0xFFFF, each input byte is folded in, the final 16-bit accumulator is
returned. -/
def crc_spec (data : List Nat) : Nat := data.foldl crcSpecByte 0xFFFF

theorem land_ffff (c : Nat) : c &&& 0xFFFF = c % 65536 := by
  have h := Nat.and_pow_two_sub_one_eq_mod c 16
  norm_num at h
  exact h

theorem land_ff (c : Nat) : c &&& 0xFF = c % 256 := by
  have h := Nat.and_pow_two_sub_one_eq_mod c 8
  norm_num at h
  exact h

theorem codeStep_eq (c : Nat) :
    (let lsb := c &&& 0x0001
     let c1 := c >>> 1
     let c2 := if lsb ≠ 0 then c1 ^^^ 0xA001 else c1
     c2 &&& 0xFFFF) = crcSpecStep c := by
  simp only [crcSpecStep, Nat.and_one_is_mod, Nat.shiftRight_one, land_ffff]
  rcases Nat.mod_two_eq_zero_or_one c with h | h <;> simp [h]

theorem foldl_range_const (f : Nat → Nat) (n x : Nat) :
    (List.range n).foldl (fun c _ => f c) x = f^[n] x := by
  induction n with
  | zero => simp
  | succ n ih =>
      rw [List.range_succ, List.foldl_append, ih]
      simp [Function.iterate_succ_apply']

theorem codeFold_eq (x : Nat) :
    (List.range 8).foldl (fun c _ =>
      let lsb := c &&& 0x0001
      let c := c >>> 1
      let c := if lsb ≠ 0 then c ^^^ 0xA001 else c
      c &&& 0xFFFF) x = crcSpecStep^[8] x := by
  have hfun : (fun (c : Nat) (_ : Nat) =>
      let lsb := c &&& 0x0001
      let c := c >>> 1
      let c := if lsb ≠ 0 then c ^^^ 0xA001 else c
      c &&& 0xFFFF) = fun c _ => crcSpecStep c := by
    funext c y
    exact codeStep_eq c
  rw [hfun, foldl_range_const]

theorem crc_fold_eq :
    ∀ (data : List Nat) (c : Nat), (∀ a ∈ data, a < 256) →
      data.foldl (fun crc a =>
        (List.range 8).foldl (fun c _ =>
          let lsb := c &&& 0x0001
          let c := c >>> 1
          let c := if lsb ≠ 0 then c ^^^ 0xA001 else c
          c &&& 0xFFFF) (crc ^^^ (a &&& 0xFF))) c = data.foldl crcSpecByte c := by
  intro data
  induction data with
  | nil => intro c _; rfl
  | cons a t ih =>
      intro c h
      have ha : a < 256 := h a (List.mem_cons_self a t)
      have ha' : a &&& 0xFF = a := by
        rw [land_ff]
        exact Nat.mod_eq_of_lt ha
      have hacc : (List.range 8).foldl (fun c _ =>
          let lsb := c &&& 0x0001
          let c := c >>> 1
          let c := if lsb ≠ 0 then c ^^^ 0xA001 else c
          c &&& 0xFFFF) (c ^^^ (a &&& 0xFF)) = crcSpecByte c a := by
        rw [codeFold_eq, ha']
        rfl
      rw [List.foldl_cons, List.foldl_cons, hacc]
      exact ih _ (fun b hb => h b (List.mem_cons_of_mem a hb))

theorem crcSpecStep_lt (c : Nat) : crcSpecStep c < 65536 := by
  unfold crcSpecStep
  split <;> exact Nat.mod_lt _ (by norm_num)

theorem iterate8_lt (x : Nat) : crcSpecStep^[8] x < 65536 := by
  have : crcSpecStep^[8] x = crcSpecStep (crcSpecStep^[7] x) :=
    Function.iterate_succ_apply' crcSpecStep 7 x
  rw [this]
  exact crcSpecStep_lt _

theorem foldl_spec_lt : ∀ (l : List Nat) (c : Nat), c < 65536 →
    l.foldl crcSpecByte c < 65536 := by
  intro l
  induction l with
  | nil => intro c h; simpa using h
  | cons a t ih =>
      intro c h
      simp only [List.foldl_cons]
      exact ih _ (iterate8_lt _)

theorem compute_crc_lt (data : List Nat) : compute_crc data < 65536 := by
  unfold compute_crc
  rw [land_ffff]
  exact Nat.mod_lt _ (by norm_num)

/-- C1: for every byte sequence, `compute_crc` returns exactly the 16-bit
value described by the spec's algorithm (accumulator 0xFFFF; per byte, XOR
into the low 8 bits then 8 shift/conditional-XOR-0xA001 rounds, masked to
16 bits at every step).  Purity and determinism are inherent: both sides
are functions of the input alone. -/
theorem compute_crc_matches_spec_algorithm (data : List Nat)
    (h : ∀ a ∈ data, a < 256) : compute_crc data = crc_spec data := by
  unfold compute_crc crc_spec
  rw [crc_fold_eq data 0xFFFF h, land_ffff,
    Nat.mod_eq_of_lt (foldl_spec_lt data 0xFFFF (by norm_num))]

/-- Witness for C1 at the request body `01 03 00 01 00 02`. -/
theorem compute_crc_matches_spec_algorithm_witness :
    compute_crc [0x01, 0x03, 0x00, 0x01, 0x00, 0x02] =
      crc_spec [0x01, 0x03, 0x00, 0x01, 0x00, 0x02] :=
  compute_crc_matches_spec_algorithm [0x01, 0x03, 0x00, 0x01, 0x00, 0x02]
    (by decide)

/-- C3 counterexample: the code's CRC of `01 03 00 01 00 02` is not the
spec's pinned value 0x3794. -/
theorem crc_known_vector_not_3794 :
    compute_crc [0x01, 0x03, 0x00, 0x01, 0x00, 0x02] ≠ 0x3794 := by
  decide

/-- C3 amended: `compute_crc [0x01,0x03,0x00,0x01,0x00,0x02]` equals 0xCB95
(the standard Modbus CRC16 of that frame), i.e. low byte 0x95 and high byte
0xCB. -/
theorem crc_known_vector_is_CB95 :
    compute_crc [0x01, 0x03, 0x00, 0x01, 0x00, 0x02] = 0xCB95 ∧
      0xCB95 % 256 = 0x95 ∧ 0xCB95 / 256 = 0xCB := by
  decide

/-- Embedding of `SerialTransport._check_crc` (transport.py lines 141-146):
reject frames shorter than 3 bytes, read the trailing CRC little-endian
(`data[-2] | (data[-1] << 8)`), recompute over `data[:-2]` and compare. -/
def check_crc (data : List Nat) : Bool :=
  if data.length < 3 then false
  else
    let crc_recv := data.getD (data.length - 2) 0 |||
      ((data.getD (data.length - 1) 0) <<< 8)
    let expected := compute_crc (data.take (data.length - 2))
    crc_recv == expected

/-- Reassembling a 16-bit value from its little-endian byte split. -/
theorem lor_split_bytes (crc : Nat) :
    (crc % 256) ||| ((crc / 256) <<< 8) = crc := by
  have h : crc % 256 < 2 ^ 8 := Nat.mod_lt _ (by norm_num)
  rw [Nat.shiftLeft_eq, Nat.lor_comm, Nat.mul_comm,
    ← Nat.mul_add_lt_is_or h (crc / 256)]
  norm_num [Nat.div_add_mod]

/-- C2 counterexample: for the empty byte sequence, appending the CRC
(low byte then high byte) yields a 2-byte sequence, which `_check_crc`
rejects because it is shorter than 3 bytes — so the round-trip property
fails for `b = []`. -/
theorem crc_roundtrip_fails_on_empty :
    check_crc (([] : List Nat) ++
      [compute_crc [] % 256, compute_crc [] / 256]) = false := by
  decide

/-- C2 amended: for every nonempty byte sequence `b`, appending
`compute_crc b` as two bytes (low first, then high) yields a sequence that
`_check_crc` accepts. -/
theorem crc_roundtrip (b : List Nat) (h : 1 ≤ b.length) :
    check_crc (b ++ [compute_crc b % 256, compute_crc b / 256]) = true := by
  unfold check_crc
  have hlen : (b ++ [compute_crc b % 256, compute_crc b / 256]).length =
      b.length + 2 := by simp
  rw [hlen]
  have hnot : ¬ (b.length + 2 < 3) := by omega
  rw [if_neg hnot]
  have h2 : b.length + 2 - 2 = b.length := by omega
  have h1 : b.length + 2 - 1 = b.length + 1 := by omega
  rw [h2, h1]
  have hget2 : (b ++ [compute_crc b % 256, compute_crc b / 256]).getD
      b.length 0 = compute_crc b % 256 := by
    rw [List.getD_eq_getElem?_getD, List.getElem?_append_right (Nat.le_refl _)]
    simp
  have hget1 : (b ++ [compute_crc b % 256, compute_crc b / 256]).getD
      (b.length + 1) 0 = compute_crc b / 256 := by
    rw [List.getD_eq_getElem?_getD,
      List.getElem?_append_right (Nat.le_succ_of_le (Nat.le_refl _))]
    simp
  have htake : (b ++ [compute_crc b % 256, compute_crc b / 256]).take
      b.length = b := List.take_left' rfl
  rw [hget2, hget1, htake, lor_split_bytes]
  simp

/-- Witness for C2 at `b = [0x01]`. -/
theorem crc_roundtrip_witness :
    check_crc ([0x01] ++
      [compute_crc [0x01] % 256, compute_crc [0x01] / 256]) = true :=
  crc_roundtrip [0x01] (by decide)

/-- Python `struct.pack` of one unsigned byte (format `B`): fails on values
outside `[0, 256)`. -/
def pack_u8 (x : Nat) : Option (List Nat) :=
  if x < 256 then some [x] else none

/-- Python `struct.pack` of one big-endian unsigned 16-bit field
(format `>H`): high byte first. -/
def pack_u16_be (x : Nat) : Option (List Nat) :=
  if x < 65536 then some [x >>> 8, x &&& 0xFF] else none

/-- Python `struct.pack` of one little-endian unsigned 16-bit field
(format `<H`): low byte first. -/
def pack_u16_le (x : Nat) : Option (List Nat) :=
  if x < 65536 then some [x &&& 0xFF, x >>> 8] else none

/-- Embedding of the request-building part of `SerialTransport.read_status`
(transport.py lines 154-161): reject unsupported function codes
(`ValueError`), then `req = pack('>B B H H', drive_id, func, start_addr,
count)`, `crc = compute_crc(req)`, `req += pack('<H', crc)`. -/
def read_status_request (drive_id func start_addr count : Nat) :
    Option (List Nat) :=
  if func ≠ 0x03 ∧ func ≠ 0x04 then none
  else do
    let a ← pack_u8 drive_id
    let f ← pack_u8 func
    let s ← pack_u16_be start_addr
    let c ← pack_u16_be count
    let req := a ++ f ++ s ++ c
    let tail ← pack_u16_le (compute_crc req)
    return req ++ tail

/-- C4: for every station address, function code in {0x03, 0x04}, 16-bit
start address and 16-bit count, the request frame is exactly
`[addr][func][startHigh][startLow][countHigh][countLow][crcLow][crcHigh]`:
payload fields big-endian, CRC of the first six bytes appended low byte
first. -/
theorem read_status_request_frame (drive_id func start_addr count : Nat)
    (hid : drive_id < 256) (hf : func = 0x03 ∨ func = 0x04)
    (hs : start_addr < 65536) (hc : count < 65536) :
    read_status_request drive_id func start_addr count =
      some ([drive_id, func, start_addr / 256, start_addr % 256,
             count / 256, count % 256] ++
        [compute_crc [drive_id, func, start_addr / 256, start_addr % 256,
             count / 256, count % 256] % 256,
         compute_crc [drive_id, func, start_addr / 256, start_addr % 256,
             count / 256, count % 256] / 256]) := by
  have hf' : ¬ (func ≠ 0x03 ∧ func ≠ 0x04) := by
    rcases hf with h | h <;> simp [h]
  have hfunc : func < 256 := by rcases hf with h | h <;> omega
  have hsr : ∀ x : Nat, x >>> 8 = x / 256 := fun x => by
    rw [Nat.shiftRight_eq_div_pow]
  simp [read_status_request, pack_u8, pack_u16_be, pack_u16_le, hf', hid,
    hfunc, hs, hc, compute_crc_lt, hsr, land_ff]

/-- Witness for C4 at drive 1, function 0x03, start 1, count 2. -/
theorem read_status_request_frame_witness :
    read_status_request 1 0x03 1 2 = some [1, 3, 0, 1, 0, 2, 0x95, 0xCB] :=
  (read_status_request_frame 1 0x03 1 2 (by decide) (Or.inl rfl)
    (by decide) (by decide)).trans (by decide)

/-- Error outcomes of the transport, one per `raise` site of
`send_and_receive` / `read_status` (transport.py): `TimeoutError`,
`IOError('Incomplete header')`, `IOError('CRC mismatch')`,
`IOError('Unknown or invalid response')`, `IOError('Short response')`. -/
inductive TransportError where
  | timeout
  | incompleteHeader
  | crcMismatch
  | unknownInvalid
  | shortResponse
deriving DecidableEq, Repr

instance {ε α : Type} [DecidableEq ε] [DecidableEq α] :
    DecidableEq (Except ε α) := fun x y =>
  match x, y with
  | .ok a, .ok b =>
      if h : a = b then .isTrue (by rw [h]) else
        .isFalse (by intro hc; cases hc; exact h rfl)
  | .error a, .error b =>
      if h : a = b then .isTrue (by rw [h]) else
        .isFalse (by intro hc; cases hc; exact h rfl)
  | .ok _, .error _ => .isFalse (by intro hc; cases hc)
  | .error _, .ok _ => .isFalse (by intro hc; cases hc)

/-- Start-of-response timeout (transport.py lines 70-73) in exact rational
seconds: `calc = 1/baudrate * START_CHARS * BITS_PER_CHAR`;
`start_timeout = max(calc, MIN_START_TIMEOUT)`. -/
def start_timeout (baudrate : ℚ) : ℚ :=
  max ((1 / baudrate) * (START_CHARS : ℚ) * (BITS_PER_CHAR : ℚ))
    MIN_START_TIMEOUT

/-- The wait-for-first-byte loop of `send_and_receive` (transport.py lines
74-83) under idealized continuous polling: `arrival` is the instant
(relative to the start of the wait) at which the first response byte
becomes readable, `none` if it never does.  The loop raises the timeout
error once the elapsed time exceeds `start_timeout`, and otherwise
succeeds as soon as the byte is read. -/
def wait_first_byte (baudrate : ℚ) (arrival : Option ℚ) :
    Except TransportError Unit :=
  match arrival with
  | none => .error .timeout
  | some t =>
      if start_timeout baudrate < t then .error .timeout else .ok ()

/-- A first byte arrives no later than `window` after the wait begins. -/
def arrivesWithin (arrival : Option ℚ) (window : ℚ) : Prop :=
  ∃ t, arrival = some t ∧ t ≤ window

/-- C5: when a response is expected, the wait for the first response byte
uses the window `max(0.5, (1/baudRate) * 200 * 10)` seconds, and the
exchange fails with Timeout exactly when no byte arrives within that
window. -/
theorem start_timeout_formula_and_timeout_iff (baudrate : ℚ)
    (arrival : Option ℚ) :
    start_timeout baudrate = max (1/2 : ℚ) (1 / baudrate * 200 * 10) ∧
    (wait_first_byte baudrate arrival = Except.error TransportError.timeout ↔
      ¬ arrivesWithin arrival (start_timeout baudrate)) := by
  constructor
  · rw [start_timeout, max_comm]
    norm_num [START_CHARS, BITS_PER_CHAR, MIN_START_TIMEOUT]
  · cases arrival with
    | none => simp [wait_first_byte, arrivesWithin]
    | some t =>
        rcases le_or_lt t (start_timeout baudrate) with h | h
        · simp [wait_first_byte, arrivesWithin, not_lt.mpr h, h]
        · simp [wait_first_byte, arrivesWithin, h, not_le.mpr h]

/-- Embedding of the response phase of `SerialTransport.send_and_receive`
(transport.py lines 74-126).  `incoming` is the complete sequence of bytes
the device makes available before the relevant read deadlines; since
`_read_exact` (lines 128-139) returns up to `n` bytes and comes up short
when the line goes quiet, each read takes from the front of `incoming` and
a shortfall corresponds to `incoming` being exhausted.  An empty `incoming`
means no first byte arrived before `start_timeout` (the Timeout error).
The 0x03 and 0x04 branches of the source are merged because their bodies
are identical; the unknown-function branch accumulates every remaining
byte until the 50 ms silence, i.e. all of `incoming`. -/
def recvFrame (incoming : List Nat) : Except TransportError (List Nat) :=
  match incoming with
  | [] => .error .timeout
  | first :: rest =>
    let header := first :: rest.take 2
    if header.length < 3 then .error .incompleteHeader
    else
      let cmd := header.getD 1 0
      let body := rest.drop 2
      if cmd = 0x03 ∨ cmd = 0x04 then
        let byte_num := header.getD 2 0
        let data := body.take (byte_num + 2)
        let resp := header ++ data
        if check_crc resp then .ok resp else .error .crcMismatch
      else if cmd = 0x06 then
        let rest6 := body.take (4 + 2)
        let resp := header ++ rest6
        if check_crc resp then .ok resp else .error .crcMismatch
      else
        let resp := header ++ body
        if 3 ≤ resp.length ∧ check_crc resp then .ok resp
        else .error .unknownInvalid

/-- C6 counterexample: a 0x03 response announcing `byteCount = 4` of which
no data byte ever arrives is reported as a CRC mismatch, not as an
incomplete-frame error (the code has no such error for the 0x03/0x04
branches). -/
theorem truncated_read_response_is_crcMismatch_cex :
    recvFrame [0x01, 0x03, 0x04] =
      Except.error TransportError.crcMismatch := by
  decide

/-- C6 amended: for a response with function code 0x03 or 0x04, the third
header byte is treated as `byteCount` and up to `byteCount + 2` further
bytes are read; the assembled (possibly truncated) frame is then CRC
checked, and the exchange fails with CrcMismatch — not with a distinct
IncompleteFrame error — whenever that check fails. -/
theorem read_response_truncation_yields_crcMismatch (incoming : List Nat)
    (hlen : 3 ≤ incoming.length)
    (hcmd : incoming.getD 1 0 = 0x03 ∨ incoming.getD 1 0 = 0x04) :
    recvFrame incoming =
      (if check_crc (incoming.take 3 ++
          (incoming.drop 3).take (incoming.getD 2 0 + 2)) then
        Except.ok (incoming.take 3 ++
          (incoming.drop 3).take (incoming.getD 2 0 + 2))
      else Except.error TransportError.crcMismatch) := by
  rcases incoming with _ | ⟨a, _ | ⟨b, _ | ⟨c, t⟩⟩⟩
  · simp at hlen
  · simp at hlen
  · simp at hlen
  · simp only [List.getD_cons_succ, List.getD_cons_zero] at hcmd
    simp [recvFrame, hcmd]

/-- Witness for C6 at the truncated response `01 03 04`. -/
theorem read_response_truncation_witness :
    recvFrame [0x01, 0x03, 0x04] =
      (if check_crc (([0x01, 0x03, 0x04] : List Nat).take 3 ++
          (([0x01, 0x03, 0x04] : List Nat).drop 3).take
            (([0x01, 0x03, 0x04] : List Nat).getD 2 0 + 2)) then
        Except.ok (([0x01, 0x03, 0x04] : List Nat).take 3 ++
          (([0x01, 0x03, 0x04] : List Nat).drop 3).take
            (([0x01, 0x03, 0x04] : List Nat).getD 2 0 + 2))
      else Except.error TransportError.crcMismatch) :=
  read_response_truncation_yields_crcMismatch [0x01, 0x03, 0x04]
    (by decide) (by decide)

/-- C7 counterexample: the 3-byte arrival `01 7E 80` (shorter than the
claimed 5-byte minimum) is accepted as a valid frame: its function byte
0x7E routes it to the unknown-function branch, whose only requirements are
length at least 3 and a valid trailing CRC, and `0x807E` is exactly
`compute_crc [0x01]`. -/
theorem short_frame_accepted_cex :
    (([0x01, 0x7E, 0x80] : List Nat).length < 5) ∧
      recvFrame [0x01, 0x7E, 0x80] = Except.ok [0x01, 0x7E, 0x80] := by
  decide

/-- C7 amended: response parsing fails (with Timeout on an empty arrival,
otherwise with the incomplete-header error) whenever fewer than 3 bytes
arrive, and no arrival shorter than 3 bytes is ever accepted as a valid
frame; the 5-byte minimum claimed by the spec is not enforced — 3- and
4-byte frames with a valid trailing CRC are accepted. -/
theorem short_input_never_accepted (incoming : List Nat)
    (h : incoming.length < 3) (resp : List Nat) :
    recvFrame incoming ≠ Except.ok resp := by
  rcases incoming with _ | ⟨a, _ | ⟨b, _ | ⟨c, t⟩⟩⟩
  · simp [recvFrame]
  · simp [recvFrame]
  · simp [recvFrame]
  · simp only [List.length_cons] at h
    omega

/-- Witness for C7 at the 2-byte arrival `01 03`. -/
theorem short_input_never_accepted_witness :
    recvFrame [0x01, 0x03] ≠ Except.ok [0x01, 0x03] :=
  short_input_never_accepted [0x01, 0x03] (by decide) [0x01, 0x03]

/-- The value-assembly loop of `read_status` (transport.py lines 168-172):
`for i in range(0, len(data), 2)` takes `hi = data[i]` and
`lo = data[i+1] if i+1 < len(data) else 0`, appending `(hi << 8) | lo`. -/
def pairUp : List Nat → List Nat
  | [] => []
  | [hi] => [(hi <<< 8) ||| 0]
  | hi :: lo :: rest => ((hi <<< 8) ||| lo) :: pairUp rest

theorem pairUp_length : ∀ data : List Nat,
    (pairUp data).length = (data.length + 1) / 2
  | [] => by simp [pairUp]
  | [hi] => by simp [pairUp]
  | hi :: lo :: rest => by
      simp only [pairUp, List.length_cons, pairUp_length rest]
      omega

theorem pairUp_getD : ∀ (data : List Nat) (i : Nat),
    (pairUp data).getD i 0 =
      if 2 * i < data.length then
        ((data.getD (2 * i) 0) <<< 8) ||| data.getD (2 * i + 1) 0
      else 0
  | [], i => by simp [pairUp]
  | [hi], i => by
      cases i with
      | zero => simp [pairUp]
      | succ n => simp [pairUp]
  | hi :: lo :: rest, i => by
      cases i with
      | zero => simp [pairUp]
      | succ n =>
          have e1 : 2 * (n + 1) = 2 * n + 1 + 1 := by ring
          have e2 : 2 * (n + 1) + 1 = 2 * n + 1 + 1 + 1 := by ring
          simp only [pairUp, List.getD_cons_succ, List.length_cons, e1, e2]
          rw [pairUp_getD rest n]
          by_cases h : 2 * n < rest.length
          · rw [if_pos h, if_pos (by omega)]
          · rw [if_neg h, if_neg (by omega)]

theorem getElem_eq_getD (l : List Nat) (n : Nat) (h : n < l.length) :
    l[n] = l.getD n 0 := by
  rw [List.getD_eq_getElem?_getD, List.getElem?_eq_getElem h]
  rfl

theorem padded_take_getD (l : List Nat) (count i : Nat) (h : i < count) :
    ((l ++ List.replicate (count - l.length) 0).take count).getD i 0 =
      if i < l.length then l.getD i 0 else 0 := by
  rw [List.getD_eq_getElem?_getD, List.getElem?_take_of_lt h]
  by_cases hl : i < l.length
  · rw [List.getElem?_append_left hl, if_pos hl, List.getD_eq_getElem?_getD]
  · rw [List.getElem?_append_right (Nat.le_of_not_lt hl), if_neg hl,
      List.getElem?_replicate]
    split <;> rfl

/-- Embedding of the response-interpretation part of
`SerialTransport.read_status` (transport.py lines 163-176): raise
`IOError('Short response')` when the response has fewer than 3 bytes,
otherwise slice `data = resp[3:3+resp[2]]`, assemble 16-bit values with
the guarded loop, pad the list with zeros while it is shorter than
`count`, and return the first `count` entries. -/
def read_status_vals (resp : List Nat) (count : Nat) :
    Except TransportError (List Nat) :=
  if resp.length < 3 then .error .shortResponse
  else
    let byte_num := resp.getD 2 0
    let data := (resp.drop 3).take byte_num
    let vals := pairUp data
    .ok ((vals ++ List.replicate (count - vals.length) 0).take count)

/-- C8: whenever `send_and_receive` succeeds and `read_status` interprets
the response, the returned list has exactly `count` elements; element `i`
is `(data[2i] << 8) | data[2i+1]` from the sliced payload (with a missing
low byte read as 0), and positions beyond the payload are zero-padded
rather than failing. -/
theorem read_status_result_shape (incoming resp : List Nat) (count : Nat)
    (vals : List Nat) (_hrecv : recvFrame incoming = Except.ok resp)
    (hvals : read_status_vals resp count = Except.ok vals) :
    vals = (List.range count).map (fun i =>
      let data := (resp.drop 3).take (resp.getD 2 0)
      if 2 * i < data.length then
        ((data.getD (2 * i) 0) <<< 8) ||| data.getD (2 * i + 1) 0
      else 0) := by
  unfold read_status_vals at hvals
  by_cases h3 : resp.length < 3
  · rw [if_pos h3] at hvals
    cases hvals
  · rw [if_neg h3] at hvals
    simp only [Except.ok.injEq] at hvals
    subst hvals
    apply List.ext_getElem
    · simp only [List.length_take, List.length_append, List.length_replicate,
        List.length_map, List.length_range]
      omega
    · intro i h1 h2
      have hic : i < count := by
        simpa using h2
      rw [getElem_eq_getD _ _ h1, getElem_eq_getD _ _ h2,
        padded_take_getD _ _ _ hic]
      have hmap : ((List.range count).map (fun i =>
          let data := (resp.drop 3).take (resp.getD 2 0)
          if 2 * i < data.length then
            ((data.getD (2 * i) 0) <<< 8) ||| data.getD (2 * i + 1) 0
          else 0)).getD i 0 =
          (let data := (resp.drop 3).take (resp.getD 2 0)
           if 2 * i < data.length then
             ((data.getD (2 * i) 0) <<< 8) ||| data.getD (2 * i + 1) 0
           else 0) := by
        rw [List.getD_eq_getElem?_getD, List.getElem?_eq_getElem (by simpa)]
        simp
      rw [hmap]
      simp only []
      by_cases hd : 2 * i < ((resp.drop 3).take (resp.getD 2 0)).length
      · have hp : i < (pairUp ((resp.drop 3).take (resp.getD 2 0))).length := by
          rw [pairUp_length]
          omega
        rw [if_pos hp, pairUp_getD, if_pos hd]
      · have hp : ¬ i < (pairUp ((resp.drop 3).take (resp.getD 2 0))).length := by
          rw [pairUp_length]
          omega
        rw [if_neg hp, if_neg hd]

/-- Witness for C8 on the valid response `01 03 04 00 0A 00 0B 9B F6`
(CRC16 of the first seven bytes is 0xF69B) with `count = 2`. -/
theorem read_status_result_shape_witness :
    ([0x000A, 0x000B] : List Nat) = (List.range 2).map (fun i =>
      let data := (([0x01, 0x03, 0x04, 0x00, 0x0A, 0x00, 0x0B, 0x9B, 0xF6] :
          List Nat).drop 3).take
        (([0x01, 0x03, 0x04, 0x00, 0x0A, 0x00, 0x0B, 0x9B, 0xF6] :
          List Nat).getD 2 0)
      if 2 * i < data.length then
        ((data.getD (2 * i) 0) <<< 8) ||| data.getD (2 * i + 1) 0
      else 0) :=
  read_status_result_shape
    [0x01, 0x03, 0x04, 0x00, 0x0A, 0x00, 0x0B, 0x9B, 0xF6]
    [0x01, 0x03, 0x04, 0x00, 0x0A, 0x00, 0x0B, 0x9B, 0xF6]
    2 [0x000A, 0x000B] (by decide) (by decide)

/-- C10: on an odd-length payload the final register value is assembled
with the missing low byte treated as zero — it equals
`(lastByte << 8) | 0` and sits at index `(len - 1) / 2` of the value list,
whose length is `(len + 1) / 2`; the assembly loop is total (every access
is guarded), as `pairUp` is a total function. -/
theorem odd_payload_last_value (data : List Nat)
    (h : data.length % 2 = 1) :
    (pairUp data).length = (data.length + 1) / 2 ∧
    (pairUp data).getD ((data.length - 1) / 2) 0 =
      ((data.getD (data.length - 1) 0) <<< 8) ||| 0 := by
  refine ⟨pairUp_length data, ?_⟩
  have hg : data.getD data.length 0 = 0 := by
    rw [List.getD_eq_getElem?_getD, List.getElem?_eq_none (Nat.le_refl _)]
    rfl
  rw [pairUp_getD,
    (by omega : 2 * ((data.length - 1) / 2) = data.length - 1),
    (by omega : data.length - 1 + 1 = data.length),
    if_pos (by omega : data.length - 1 < data.length), hg]

/-- Witness for C10 at the 3-byte payload `[1, 2, 3]`. -/
theorem odd_payload_last_value_witness :
    (pairUp [1, 2, 3]).length = (([1, 2, 3] : List Nat).length + 1) / 2 ∧
    (pairUp [1, 2, 3]).getD ((([1, 2, 3] : List Nat).length - 1) / 2) 0 =
      ((([1, 2, 3] : List Nat).getD (([1, 2, 3] : List Nat).length - 1) 0)
        <<< 8) ||| 0 :=
  odd_payload_last_value [1, 2, 3] (by decide)

/-- The inner while loop of `DriveTab._refresh_status_generic` (gui.py
lines 975-978): starting from a run of `count` registers at `start`, keep
absorbing the next sorted id while it equals `start + count` and the run
holds fewer than 8 registers; returns the final count and the unconsumed
suffix. -/
def extendRun (start : Nat) : Nat → List Nat → Nat × List Nat
  | count, [] => (count, [])
  | count, y :: ys =>
      if y = start + count ∧ count < 8 then extendRun start (count + 1) ys
      else (count, y :: ys)

/-- The outer loop of `_refresh_status_generic` (gui.py lines 969-979),
fuelled by the list length (each iteration consumes at least the first
element of the remaining list, so `l.length` iterations always suffice):
one `(start, count)` range read is issued per run. -/
def coalesceGo : Nat → List Nat → List (Nat × Nat)
  | _, [] => []
  | 0, _ :: _ => []
  | fuel + 1, x :: rest =>
      let r := extendRun x 1 rest
      (x, r.1) :: coalesceGo fuel r.2

/-- Coalescing a list of register ids into `(start, count)` range reads. -/
def coalesce (l : List Nat) : List (Nat × Nat) := coalesceGo l.length l

/-- The status-refresh pass first sorts the requested ids ascending
(`sorted(entries, key=lambda x: int(x.get('id', 0)))` in gui.py line 968;
insertion sort agrees with Python's stable sort on plain ids) and then
coalesces them. -/
def refresh_status_reads (entries : List Nat) : List (Nat × Nat) :=
  coalesce (entries.insertionSort (· ≤ ·))

/-- The register addresses covered by a list of `(start, count)` reads, in
order: `start, start+1, ..., start+count-1` for each read. -/
def expandRuns : List (Nat × Nat) → List Nat
  | [] => []
  | p :: rest => List.range' p.1 p.2 ++ expandRuns rest

theorem extendRun_snd_le (start : Nat) : ∀ (count : Nat) (l : List Nat),
    (extendRun start count l).2.length ≤ l.length
  | count, [] => by simp [extendRun]
  | count, y :: ys => by
      rw [extendRun]
      split
      · exact Nat.le_trans (extendRun_snd_le start (count + 1) ys)
          (Nat.le_succ _)
      · simp

theorem extendRun_expand (start : Nat) : ∀ (count : Nat) (l : List Nat),
    List.range' start (extendRun start count l).1 ++
      (extendRun start count l).2 = List.range' start count ++ l
  | count, [] => by simp [extendRun]
  | count, y :: ys => by
      rw [extendRun]
      split
      · rename_i hc
        rw [extendRun_expand start (count + 1) ys, List.range'_1_concat]
        simp [hc.1]
      · rfl

theorem extendRun_fst_bounds (start : Nat) : ∀ (count : Nat) (l : List Nat),
    count ≤ 8 → (extendRun start count l).1 ≤ 8 ∧
      count ≤ (extendRun start count l).1
  | count, [], h => by simpa [extendRun] using h
  | count, y :: ys, h => by
      rw [extendRun]
      split
      · rename_i hc
        have hrec := extendRun_fst_bounds start (count + 1) ys hc.2
        exact ⟨hrec.1, Nat.le_trans (Nat.le_succ _) hrec.2⟩
      · simpa using h

theorem coalesceGo_expand : ∀ (fuel : Nat) (l : List Nat),
    l.length ≤ fuel → expandRuns (coalesceGo fuel l) = l
  | _, [], _ => by simp [coalesceGo, expandRuns]
  | 0, x :: rest, h => by simp at h
  | fuel + 1, x :: rest, h => by
      simp only [coalesceGo, expandRuns]
      have hr : (extendRun x 1 rest).2.length ≤ fuel := by
        have := extendRun_snd_le x 1 rest
        simp only [List.length_cons] at h
        omega
      rw [coalesceGo_expand fuel _ hr]
      exact (extendRun_expand x 1 rest).trans (by simp [List.range'_one])

theorem coalesceGo_bounds : ∀ (fuel : Nat) (l : List Nat) (p : Nat × Nat),
    p ∈ coalesceGo fuel l → 1 ≤ p.2 ∧ p.2 ≤ 8
  | _, [], p, hp => by simp [coalesceGo] at hp
  | 0, _ :: _, p, hp => by simp [coalesceGo] at hp
  | fuel + 1, x :: rest, p, hp => by
      simp only [coalesceGo, List.mem_cons] at hp
      rcases hp with rfl | hp
      · have hb := extendRun_fst_bounds x 1 rest (by norm_num)
        exact ⟨hb.2, hb.1⟩
      · exact coalesceGo_bounds fuel _ p hp

/-- C9: the status-refresh pass coalesces the sorted requested addresses
into runs of consecutive addresses, each run covering between 1 and 8
registers, with one range read per run (expanding the issued reads
reproduces exactly the sorted request list); in particular the requested
addresses 10, 11, 12, 20 produce exactly the two reads (10, count 3) and
(20, count 1). -/
theorem refresh_coalescing :
    (∀ entries : List Nat,
      expandRuns (refresh_status_reads entries) =
        entries.insertionSort (· ≤ ·)) ∧
    (∀ entries : List Nat, ∀ p ∈ refresh_status_reads entries,
      1 ≤ p.2 ∧ p.2 ≤ 8) ∧
    refresh_status_reads [10, 11, 12, 20] = [(10, 3), (20, 1)] := by
  refine ⟨?_, ?_, ?_⟩
  · intro entries
    exact coalesceGo_expand _ _ (Nat.le_refl _)
  · intro entries p hp
    exact coalesceGo_bounds _ _ p hp
  · decide

/-- Witness for C9 at the spec's example request set. -/
theorem refresh_coalescing_witness :
    expandRuns (refresh_status_reads [10, 11, 12, 20]) =
      ([10, 11, 12, 20] : List Nat).insertionSort (· ≤ ·) ∧
    (1 ≤ ((10, 3) : Nat × Nat).2 ∧ ((10, 3) : Nat × Nat).2 ≤ 8) :=
  ⟨refresh_coalescing.1 [10, 11, 12, 20],
   refresh_coalescing.2.1 [10, 11, 12, 20] (10, 3) (by decide)⟩

end T3D
